import Mathlib

/-
Verification of the certificate canonicalization pipeline of
tls-observatory (package certificate, file certificate.go).

The Go code is shallowly embedded: Go slices become `GoSlice` (an
`Option (List _)`, distinguishing a nil slice from a non-nil empty
slice, as Go and its JSON encoder do); Go `map[string]V` becomes an
association list with insert-or-replace semantics; 32-bit machine
words become `Nat` with explicit reduction `% 4294967296`; code that
can panic (out-of-range indexing into the fixed lookup tables)
returns `Option`.  The MD5, SHA-1 and SHA-256 digests and the hex and
base64 encoders used by the hash fields are implemented in full.
-/

namespace TLSObs

set_option maxRecDepth 10000

/-! ## Go slices (nil vs empty) and Go maps -/

/-- A Go slice: `none` is the nil slice, `some l` a non-nil slice with
elements `l`.  Go's `encoding/json` marshals `none` as `null` and
`some []` as `[]`. -/
abbrev GoSlice (α : Type) := Option (List α)

/-- Go `len` on a slice: 0 on nil. -/
def GoSlice.len : GoSlice α → Nat
  | none => 0
  | some l => l.length

/-- The elements of a Go slice (nil has none). -/
def GoSlice.toList : GoSlice α → List α
  | none => []
  | some l => l

/-- Go `append(s, x)`: appending to nil yields a non-nil slice. -/
def GoSlice.append1 : GoSlice α → α → GoSlice α
  | none, x => some [x]
  | some l, x => some (l ++ [x])

/-- Go `append(s, xs...)` with the elements of another slice. -/
def GoSlice.appendAll : GoSlice α → List α → GoSlice α
  | none, xs => match xs with
    | [] => none
    | _ => some xs
  | some l, xs => some (l ++ xs)

/-- Go `make([]α, 0)`: a non-nil empty slice. -/
def GoSlice.make0 : GoSlice α := some []

/-- A Go `map[string]V`, embedded as an association list in insertion
order.  Keys are unique by construction of `set`. -/
abbrev GoMap (V : Type) := List (String × V)

/-- Go map assignment `m[k] = v`: replace the binding if present,
otherwise add it at the end. -/
def GoMap.set (m : GoMap V) (k : String) (v : V) : GoMap V :=
  if m.any (fun p => p.1 == k) then
    m.map (fun p => if p.1 == k then (k, v) else p)
  else
    m ++ [(k, v)]

/-- Go comma-ok map read `v, ok := m[k]`. -/
def GoMap.get (m : GoMap V) (k : String) : Option V :=
  (m.find? (fun p => p.1 == k)).map Prod.snd

/-- The keys of a Go map, in insertion order. -/
def GoMap.keys (m : GoMap V) : List String := m.map Prod.fst

/-- The number of keys of a Go map. -/
def GoMap.size (m : GoMap V) : Nat := m.length

/-! ## Strings: join, case, hex, base64 -/

/-- The loop of Go `strings.Join`: write the separator then the
element, for each element after the first. -/
def strJoinRest : List String → String → String
  | [], _ => ""
  | a :: rest, sep => sep ++ a ++ strJoinRest rest sep

/-- Go `strings.Join(elems, sep)`: the first element, then separator
and element for each remaining element. -/
def strJoin : List String → String → String
  | [], _ => ""
  | a :: rest, sep => a ++ strJoinRest rest sep

/-- Go `strings.ToUpper` restricted to ASCII (all its uses here are on
ASCII hex strings). -/
def asciiUpper (s : String) : String :=
  String.mk (s.data.map (fun c =>
    if 97 ≤ c.toNat ∧ c.toNat ≤ 122 then Char.ofNat (c.toNat - 32) else c))

/-- An uppercase hex digit. -/
def hexDigitU (n : Nat) : Char :=
  if n < 10 then Char.ofNat (48 + n) else Char.ofNat (55 + n)

/-- A lowercase hex digit. -/
def hexDigitL (n : Nat) : Char :=
  if n < 10 then Char.ofNat (48 + n) else Char.ofNat (87 + n)

/-- Go `fmt.Sprintf("%X", bytes)`: uppercase hex of a byte string. -/
def hexUpper (bs : List Nat) : String :=
  String.mk (bs.foldr
    (fun b acc => hexDigitU (b / 16 % 16) :: hexDigitU (b % 16) :: acc) [])

/-- Go `hex.EncodeToString`: lowercase hex of a byte string. -/
def hexLower (bs : List Nat) : String :=
  String.mk (bs.foldr
    (fun b acc => hexDigitL (b / 16 % 16) :: hexDigitL (b % 16) :: acc) [])

/-- The standard base64 alphabet. -/
def base64Chars : List Char :=
  "ABCDEFGHIJKLMNOPQRSTUVWXYZabcdefghijklmnopqrstuvwxyz0123456789+/".data

/-- One base64 output character. -/
def base64Char (n : Nat) : Char := base64Chars.getD n (Char.ofNat 61)

/-- Character data of the standard padded base64 encoding of a byte
string, three input bytes at a time. -/
def base64Data : List Nat → List Char
  | [] => []
  | [a] =>
      [base64Char (a / 4), base64Char (a % 4 * 16),
       Char.ofNat 61, Char.ofNat 61]
  | [a, b] =>
      [base64Char (a / 4), base64Char (a % 4 * 16 + b / 16),
       base64Char (b % 16 * 4), Char.ofNat 61]
  | a :: b :: c :: rest =>
      base64Char (a / 4) :: base64Char (a % 4 * 16 + b / 16) ::
      base64Char (b % 16 * 4 + c / 64) :: base64Char (c % 64) ::
      base64Data rest

/-- Go `base64.StdEncoding.EncodeToString`. -/
def base64Encode (bs : List Nat) : String := String.mk (base64Data bs)

/-! ## 32-bit word arithmetic -/

/-- Reduce to a 32-bit word. -/
def w32 (n : Nat) : Nat := n % 4294967296

/-- Rotate a 32-bit word right. -/
def rotr32 (x n : Nat) : Nat := w32 ((x >>> n) ||| (x <<< (32 - n)))

/-- Rotate a 32-bit word left. -/
def rotl32 (x n : Nat) : Nat := w32 ((x <<< n) ||| (x >>> (32 - n)))

/-- Bitwise complement of a 32-bit word. -/
def not32 (x : Nat) : Nat := x ^^^ 4294967295

/-- Big-endian bytes of a 64-bit length. -/
def be64 (n : Nat) : List Nat :=
  [(n >>> 56) % 256, (n >>> 48) % 256, (n >>> 40) % 256, (n >>> 32) % 256,
   (n >>> 24) % 256, (n >>> 16) % 256, (n >>> 8) % 256, n % 256]

/-- Little-endian bytes of a 64-bit length. -/
def le64 (n : Nat) : List Nat :=
  [n % 256, (n >>> 8) % 256, (n >>> 16) % 256, (n >>> 24) % 256,
   (n >>> 32) % 256, (n >>> 40) % 256, (n >>> 48) % 256, (n >>> 56) % 256]

/-- Big-endian bytes of a 32-bit word. -/
def be32 (n : Nat) : List Nat :=
  [(n >>> 24) % 256, (n >>> 16) % 256, (n >>> 8) % 256, n % 256]

/-- Little-endian bytes of a 32-bit word. -/
def le32 (n : Nat) : List Nat :=
  [n % 256, (n >>> 8) % 256, (n >>> 16) % 256, (n >>> 24) % 256]

/-- Split a byte string into 64-byte blocks (structural recursion so
that the kernel can evaluate digests; a final short block is emitted
as is, though padding always produces a multiple of 64). -/
def chunks64Aux (block : List Nat) : List Nat → List (List Nat)
  | [] => if block.isEmpty then [] else [block]
  | x :: xs =>
      if block.length = 63 then (block ++ [x]) :: chunks64Aux [] xs
      else chunks64Aux (block ++ [x]) xs

/-- Split a byte string into 64-byte blocks. -/
def chunks64 (l : List Nat) : List (List Nat) := chunks64Aux [] l

/-- Merkle–Damgård padding: a 0x80 byte, zeros to 56 mod 64, then the
bit length encoded on 8 bytes by `lenBytes`. -/
def mdPad (lenBytes : Nat → List Nat) (msg : List Nat) : List Nat :=
  let len := msg.length
  let k := (64 + 55 - len % 64) % 64
  msg ++ [128] ++ List.replicate k 0 ++ lenBytes (8 * len)

/-- 32-bit big-endian words of a byte string. -/
def beWords : List Nat → List Nat
  | a :: b :: c :: d :: rest =>
      (((a * 256 + b) * 256 + c) * 256 + d) :: beWords rest
  | _ => []

/-- 32-bit little-endian words of a byte string. -/
def leWords : List Nat → List Nat
  | a :: b :: c :: d :: rest =>
      (a + 256 * (b + 256 * (c + 256 * d))) :: leWords rest
  | _ => []

/-! ## SHA-256 -/

/-- The SHA-256 round constants, written in decimal. -/
def sha256K : List Nat :=
  [1116352408, 1899447441, 3049323471, 3921009573,
   961987163, 1508970993, 2453635748, 2870763221,
   3624381080, 310598401, 607225278, 1426881987,
   1925078388, 2162078206, 2614888103, 3248222580,
   3835390401, 4022224774, 264347078, 604807628,
   770255983, 1249150122, 1555081692, 1996064986,
   2554220882, 2821834349, 2952996808, 3210313671,
   3336571891, 3584528711, 113926993, 338241895,
   666307205, 773529912, 1294757372, 1396182291,
   1695183700, 1986661051, 2177026350, 2456956037,
   2730485921, 2820302411, 3259730800, 3345764771,
   3516065817, 3600352804, 4094571909, 275423344,
   430227734, 506948616, 659060556, 883997877,
   958139571, 1322822218, 1537002063, 1747873779,
   1955562222, 2024104815, 2227730452, 2361852424,
   2428436474, 2756734187, 3204031479, 3329325298]

/-- The SHA-256 initial state, written in decimal. -/
def sha256Init : List Nat :=
  [1779033703, 3144134277, 1013904242, 2773480762,
   1359893119, 2600822924, 528734635, 1541459225]

def sha256BSig0 (x : Nat) : Nat := rotr32 x 2 ^^^ rotr32 x 13 ^^^ rotr32 x 22

def sha256BSig1 (x : Nat) : Nat := rotr32 x 6 ^^^ rotr32 x 11 ^^^ rotr32 x 25

def sha256SSig0 (x : Nat) : Nat := rotr32 x 7 ^^^ rotr32 x 18 ^^^ (x >>> 3)

def sha256SSig1 (x : Nat) : Nat := rotr32 x 17 ^^^ rotr32 x 19 ^^^ (x >>> 10)

def sha2Ch (x y z : Nat) : Nat := (x &&& y) ^^^ (not32 x &&& z)

def sha2Maj (x y z : Nat) : Nat := (x &&& y) ^^^ (x &&& z) ^^^ (y &&& z)

/-- Extend the message schedule by one word. -/
def sha256Extend (w : List Nat) : List Nat :=
  let n := w.length
  w ++ [w32 (sha256SSig1 (w.getD (n - 2) 0) + w.getD (n - 7) 0 +
             sha256SSig0 (w.getD (n - 15) 0) + w.getD (n - 16) 0)]

/-- The 64-word message schedule of one block. -/
def sha256Schedule (block : List Nat) : List Nat :=
  (List.range 48).foldl (fun w _ => sha256Extend w) (beWords block)

/-- One SHA-256 compression round. -/
def sha256Round (w : List Nat) (st : List Nat) (i : Nat) : List Nat :=
  match st with
  | [a, b, c, d, e, f, g, h] =>
      let t1 := w32 (h + sha256BSig1 e + sha2Ch e f g +
                     sha256K.getD i 0 + w.getD i 0)
      let t2 := w32 (sha256BSig0 a + sha2Maj a b c)
      [w32 (t1 + t2), a, b, c, w32 (d + t1), e, f, g]
  | st => st

/-- Process one 64-byte block. -/
def sha256Block (hs : List Nat) (block : List Nat) : List Nat :=
  let w := sha256Schedule block
  let st := (List.range 64).foldl (sha256Round w) hs
  (hs.zip st).map (fun p => w32 (p.1 + p.2))

/-- SHA-256 digest (32 bytes) of a byte string. -/
def sha256Bytes (msg : List Nat) : List Nat :=
  let hs := (chunks64 (mdPad be64 msg)).foldl sha256Block sha256Init
  (hs.map be32).flatten

/-! ## SHA-1 -/

/-- The SHA-1 initial state, written in decimal. -/
def sha1Init : List Nat :=
  [1732584193, 4023233417, 2562383102, 271733878, 3285377520]

/-- Extend the SHA-1 schedule by one word. -/
def sha1Extend (w : List Nat) : List Nat :=
  let n := w.length
  w ++ [rotl32 (w.getD (n - 3) 0 ^^^ w.getD (n - 8) 0 ^^^
                w.getD (n - 14) 0 ^^^ w.getD (n - 16) 0) 1]

/-- The 80-word SHA-1 schedule of one block. -/
def sha1Schedule (block : List Nat) : List Nat :=
  (List.range 64).foldl (fun w _ => sha1Extend w) (beWords block)

/-- The round function and constant of SHA-1 round `i`. -/
def sha1FK (i b c d : Nat) : Nat × Nat :=
  if i < 20 then ((b &&& c) ||| (not32 b &&& d), 1518500249)
  else if i < 40 then (b ^^^ c ^^^ d, 1859775393)
  else if i < 60 then ((b &&& c) ||| (b &&& d) ||| (c &&& d), 2400959708)
  else (b ^^^ c ^^^ d, 3395469782)

/-- One SHA-1 compression round. -/
def sha1Round (w : List Nat) (st : List Nat) (i : Nat) : List Nat :=
  match st with
  | [a, b, c, d, e] =>
      let fk := sha1FK i b c d
      [w32 (rotl32 a 5 + fk.1 + e + fk.2 + w.getD i 0),
       a, rotl32 b 30, c, d]
  | st => st

/-- Process one 64-byte block. -/
def sha1Block (hs : List Nat) (block : List Nat) : List Nat :=
  let w := sha1Schedule block
  let st := (List.range 80).foldl (sha1Round w) hs
  (hs.zip st).map (fun p => w32 (p.1 + p.2))

/-- SHA-1 digest (20 bytes) of a byte string. -/
def sha1Bytes (msg : List Nat) : List Nat :=
  let hs := (chunks64 (mdPad be64 msg)).foldl sha1Block sha1Init
  (hs.map be32).flatten

/-! ## MD5 -/

/-- The MD5 initial state, written in decimal. -/
def md5Init : List Nat := [1732584193, 4023233417, 2562383102, 271733878]

/-- The MD5 sine-derived round constants, written in decimal. -/
def md5K : List Nat :=
  [3614090360, 3905402710, 606105819, 3250441966,
   4118548399, 1200080426, 2821735955, 4249261313,
   1770035416, 2336552879, 4294925233, 2304563134,
   1804603682, 4254626195, 2792965006, 1236535329,
   4129170786, 3225465664, 643717713, 3921069994,
   3593408605, 38016083, 3634488961, 3889429448,
   568446438, 3275163606, 4107603335, 1163531501,
   2850285829, 4243563512, 1735328473, 2368359562,
   4294588738, 2272392833, 1839030562, 4259657740,
   2763975236, 1272893353, 4139469664, 3200236656,
   681279174, 3936430074, 3572445317, 76029189,
   3654602809, 3873151461, 530742520, 3299628645,
   4096336452, 1126891415, 2878612391, 4237533241,
   1700485571, 2399980690, 4293915773, 2240044497,
   1873313359, 4264355552, 2734768916, 1309151649,
   4149444226, 3174756917, 718787259, 3951481745]

def md5S : List Nat :=
  [7, 12, 17, 22, 7, 12, 17, 22, 7, 12, 17, 22, 7, 12, 17, 22,
   5, 9, 14, 20, 5, 9, 14, 20, 5, 9, 14, 20, 5, 9, 14, 20,
   4, 11, 16, 23, 4, 11, 16, 23, 4, 11, 16, 23, 4, 11, 16, 23,
   6, 10, 15, 21, 6, 10, 15, 21, 6, 10, 15, 21, 6, 10, 15, 21]

/-- The round function and message index of MD5 round `i`. -/
def md5FG (i b c d : Nat) : Nat × Nat :=
  if i < 16 then ((b &&& c) ||| (not32 b &&& d), i)
  else if i < 32 then ((d &&& b) ||| (not32 d &&& c), (5 * i + 1) % 16)
  else if i < 48 then (b ^^^ c ^^^ d, (3 * i + 5) % 16)
  else (c ^^^ (b ||| not32 d), 7 * i % 16)

/-- One MD5 round on one block's little-endian words `m`. -/
def md5Round (m : List Nat) (st : List Nat) (i : Nat) : List Nat :=
  match st with
  | [a, b, c, d] =>
      let fg := md5FG i b c d
      let x := w32 (a + fg.1 + md5K.getD i 0 + m.getD fg.2 0)
      [d, w32 (b + rotl32 x (md5S.getD i 0)), b, c]
  | st => st

/-- Process one 64-byte block. -/
def md5Block (hs : List Nat) (block : List Nat) : List Nat :=
  let m := leWords block
  let st := (List.range 64).foldl (md5Round m) hs
  (hs.zip st).map (fun p => w32 (p.1 + p.2))

/-- MD5 digest (16 bytes) of a byte string. -/
def md5Bytes (msg : List Nat) : List Nat :=
  let hs := (chunks64 (mdPad le64 msg)).foldl md5Block md5Init
  (hs.map le32).flatten

/-! ## Data model (certificate.go)

The stored `Certificate` and its component structures mirror the Go
structs field for field.  `interface{}` fields (`Analysis`) carry no
data relevant to the pipeline and are embedded as `Unit`; `time.Time`
values are embedded as `Int` instants (`UTC()` does not change the
instant); `float64` fields only ever hold exact small integers
(bit sizes and RSA exponents) and are embedded as `Int`. -/

/-- Trust-store name constants. -/
def Ubuntu_TS_name : String := "Ubuntu"

def Mozilla_TS_name : String := "Mozilla"

def Microsoft_TS_name : String := "Microsoft"

def Apple_TS_name : String := "Apple"

def Android_TS_name : String := "Android"

structure Subject where
  ID : Int := 0
  Country : GoSlice String := none
  Organisation : GoSlice String := none
  OrgUnit : GoSlice String := none
  CommonName : String := ""
  deriving DecidableEq, Repr

structure Validity where
  NotBefore : Int := 0
  NotAfter : Int := 0
  deriving DecidableEq, Repr

structure SubjectPublicKeyInfo where
  Alg : String := ""
  Size : Int := 0
  Exponent : Int := 0
  X : String := ""
  Y : String := ""
  P : String := ""
  Q : String := ""
  G : String := ""
  Curve : String := ""
  deriving DecidableEq, Repr

structure Extensions where
  AuthorityKeyId : String := ""
  SubjectKeyId : String := ""
  KeyUsage : GoSlice String := none
  ExtendedKeyUsage : GoSlice String := none
  SubjectAlternativeName : GoSlice String := none
  CRLDistributionPoints : GoSlice String := none
  PolicyIdentifiers : GoSlice String := none
  IsNameConstrained : Bool := false
  PermittedNames : GoSlice String := none
  deriving DecidableEq, Repr

structure Hashes where
  MD5 : String := ""
  SHA1 : String := ""
  SHA256 : String := ""
  SHA256SubjectSPKI : String := ""
  PKPSHA256 : String := ""
  deriving DecidableEq, Repr

structure ValidationInfo where
  IsValid : Bool := false
  ValidationError : String := ""
  deriving DecidableEq, Repr

structure Certificate where
  ID : Int := 0
  Serial : String := ""
  ScanTarget : String := ""
  IPs : GoSlice String := none
  Version : Int := 0
  SignatureAlgorithm : String := ""
  Issuer : Subject := {}
  Validity : Validity := {}
  Subject : Subject := {}
  Key : SubjectPublicKeyInfo := {}
  X509v3Extensions : Extensions := {}
  X509v3BasicConstraints : String := ""
  CA : Bool := false
  Analysis : Unit := ()
  ParentSignature : GoSlice String := none
  ValidationInfo : GoMap ValidationInfo := []
  FirstSeenTimestamp : Int := 0
  LastSeenTimestamp : Int := 0
  Hashes : Hashes := {}
  Raw : String := ""
  Anomalies : String := ""
  deriving DecidableEq, Repr

/-! ## The parsed x509.Certificate input

The fields of Go's `crypto/x509.Certificate` that `certificate.go`
reads.  Byte strings (`Raw`, key material DER, key identifiers) are
`List Nat`; outputs of external stdlib encoders applied to parsed
fields (`MarshalPKIXPublicKey` DER of a key, `oid.String()` of an
object identifier) are carried as data of the parsed certificate. -/

/-- The parsed public key (`cert.PublicKey`), a tagged variant as in
Go's type switch.  `pkixDer` is the `x509.MarshalPKIXPublicKey`
re-serialization of the key. -/
inductive GoPublicKey where
  | rsa (n : Nat) (e : Int) (pkixDer : List Nat)
  | dsa (p q g y : Nat) (pkixDer : List Nat)
  | ecdsa (bitSize : Int) (curveName : String) (x y : Nat) (pkixDer : List Nat)
  | unknown
  deriving DecidableEq, Repr

/-- A `pkix.Name` (issuer or subject of the parsed certificate). -/
structure PkixName where
  Country : GoSlice String := none
  Organization : GoSlice String := none
  OrganizationalUnit : GoSlice String := none
  CommonName : String := ""
  deriving DecidableEq, Repr

structure X509Certificate where
  Raw : List Nat := []
  RawSubject : List Nat := []
  RawSubjectPublicKeyInfo : List Nat := []
  /-- `cert.SerialNumber.Bytes()`, the big-endian bytes of the serial. -/
  SerialNumberBytes : List Nat := []
  Version : Int := 3
  /-- `x509.SignatureAlgorithm` is a Go `int` enum. -/
  SignatureAlgorithm : Int := 0
  /-- `x509.PublicKeyAlgorithm` is a Go `int` enum. -/
  PublicKeyAlgorithm : Int := 0
  PublicKey : GoPublicKey := .unknown
  Issuer : PkixName := {}
  Subject : PkixName := {}
  NotBefore : Int := 0
  NotAfter : Int := 0
  IsCA : Bool := false
  BasicConstraintsValid : Bool := false
  DNSNames : GoSlice String := none
  CRLDistributionPoints : GoSlice String := none
  PermittedDNSDomains : GoSlice String := none
  /-- `x509.ExtKeyUsage` values, Go `int` enums. -/
  ExtKeyUsage : List Int := []
  /-- `oid.String()` of each unknown extended key usage OID. -/
  UnknownExtKeyUsage : List String := []
  /-- The `x509.KeyUsage` bitmap. -/
  KeyUsage : Nat := 0
  /-- `oid.String()` of each certificate policy OID. -/
  PolicyIdentifiers : List String := []
  AuthorityKeyId : List Nat := []
  SubjectKeyId : List Nat := []
  deriving DecidableEq, Repr

/-! ## Lookup tables and the hash functions of certificate.go -/

/-- The 13-entry signature-algorithm table `SignatureAlgorithm`. -/
def SignatureAlgorithmTable : List String :=
  ["UnknownSignatureAlgorithm",
   "MD2WithRSA",
   "MD5WithRSA",
   "SHA1WithRSA",
   "SHA256WithRSA",
   "SHA384WithRSA",
   "SHA512WithRSA",
   "DSAWithSHA1",
   "DSAWithSHA256",
   "ECDSAWithSHA1",
   "ECDSAWithSHA256",
   "ECDSAWithSHA384",
   "ECDSAWithSHA512"]

/-- The 12-entry extended-key-usage table `ExtKeyUsage`. -/
def ExtKeyUsageTable : List String :=
  ["ExtKeyUsageAny",
   "ExtKeyUsageServerAuth",
   "ExtKeyUsageClientAuth",
   "ExtKeyUsageCodeSigning",
   "ExtKeyUsageEmailProtection",
   "ExtKeyUsageIPSECEndSystem",
   "ExtKeyUsageIPSECTunnel",
   "ExtKeyUsageIPSECUser",
   "ExtKeyUsageTimeStamping",
   "ExtKeyUsageOCSPSigning",
   "ExtKeyUsageMicrosoftServerGatedCrypto",
   "ExtKeyUsageNetscapeServerGatedCrypto"]

/-- The 4-entry public-key-algorithm table `PublicKeyAlgorithm`. -/
def PublicKeyAlgorithmTable : List String :=
  ["UnknownPublicKeyAlgorithm",
   "RSA",
   "DSA",
   "ECDSA"]

/-- Go array indexing `t[i]` with an `int` index: out of range panics,
embedded as `none`. -/
def tableIndex (t : List String) (i : Int) : Option String :=
  if i < 0 then none else t.get? i.toNat

/-- `SHA256SubjectSPKI`: uppercase-hex SHA-256 of rawSubject ‖ rawSPKI. -/
def SHA256SubjectSPKI (cert : X509Certificate) : String :=
  hexUpper (sha256Bytes (cert.RawSubject ++ cert.RawSubjectPublicKeyInfo))

/-- `PKPSHA256Hash`: base64 SHA-256 of the PKIX re-serialization of the
parsed public key; for an unknown key algorithm nothing is written to
the hash, so the digest is that of the empty byte string. -/
def PKPSHA256Hash (cert : X509Certificate) : String :=
  match cert.PublicKey with
  | .rsa _ _ der => base64Encode (sha256Bytes der)
  | .dsa _ _ _ _ der => base64Encode (sha256Bytes der)
  | .ecdsa _ _ _ _ der => base64Encode (sha256Bytes der)
  | .unknown => base64Encode (sha256Bytes [])

/-- `SHA256Hash`: uppercase-hex SHA-256. -/
def SHA256Hash (data : List Nat) : String := hexUpper (sha256Bytes data)

/-- `MD5Hash`: uppercase-hex MD5. -/
def MD5Hash (data : List Nat) : String := hexUpper (md5Bytes data)

/-- `SHA1Hash`: uppercase-hex SHA-1. -/
def SHA1Hash (data : List Nat) : String := hexUpper (sha1Bytes data)

/-! ## Validity maps -/

/-- `GetBooleanValidity`: the five DB booleans
(ubuntu, mozilla, microsoft, apple, android), each the comma-ok map
read of its store name, `false` when absent. -/
def GetBooleanValidity (c : Certificate) :
    Bool × Bool × Bool × Bool × Bool :=
  let trusted_ubuntu := match GoMap.get c.ValidationInfo Ubuntu_TS_name with
    | none => false
    | some valInfo => valInfo.IsValid
  let trusted_mozilla := match GoMap.get c.ValidationInfo Mozilla_TS_name with
    | none => false
    | some valInfo => valInfo.IsValid
  let trusted_microsoft := match GoMap.get c.ValidationInfo Microsoft_TS_name with
    | none => false
    | some valInfo => valInfo.IsValid
  let trusted_apple := match GoMap.get c.ValidationInfo Apple_TS_name with
    | none => false
    | some valInfo => valInfo.IsValid
  let trusted_android := match GoMap.get c.ValidationInfo Android_TS_name with
    | none => false
    | some valInfo => valInfo.IsValid
  (trusted_ubuntu, trusted_mozilla, trusted_microsoft,
   trusted_apple, trusted_android)

/-- `GetValidityMap`: the five-store validity map built from five
booleans. -/
def GetValidityMap (trusted_ubuntu trusted_mozilla trusted_microsoft
    trusted_apple trusted_android : Bool) : GoMap ValidationInfo :=
  let vUbuntu : ValidationInfo := { IsValid := trusted_ubuntu }
  let vMozilla : ValidationInfo := { IsValid := trusted_mozilla }
  let vMicrosoft : ValidationInfo := { IsValid := trusted_microsoft }
  let vApple : ValidationInfo := { IsValid := trusted_apple }
  let vAndroid : ValidationInfo := { IsValid := trusted_android }
  let m : GoMap ValidationInfo := []
  let m := GoMap.set m Ubuntu_TS_name vUbuntu
  let m := GoMap.set m Mozilla_TS_name vMozilla
  let m := GoMap.set m Microsoft_TS_name vMicrosoft
  let m := GoMap.set m Apple_TS_name vApple
  let m := GoMap.set m Android_TS_name vAndroid
  m

/-! ## Extension and key helpers -/

/-- `getExtKeyUsages`: table translation of each EKU enum, then the
unknown EKU OID strings; `none` when an enum value is out of range of
the 12-entry table (a panic in Go). -/
def getExtKeyUsages (cert : X509Certificate) : Option (GoSlice String) :=
  (cert.ExtKeyUsage.mapM (tableIndex ExtKeyUsageTable)).map
    (fun usage => some (usage ++ cert.UnknownExtKeyUsage))

/-- `getPolicyIdentifiers`: each policy OID rendered dotted-decimal. -/
def getPolicyIdentifiers (cert : X509Certificate) : GoSlice String :=
  some cert.PolicyIdentifiers

/-- The `x509.KeyUsage` bit constants (iota-shifted in Go). -/
def KeyUsageDigitalSignature : Nat := 1

def KeyUsageContentCommitment : Nat := 2

def KeyUsageKeyEncipherment : Nat := 4

def KeyUsageDataEncipherment : Nat := 8

def KeyUsageKeyAgreement : Nat := 16

def KeyUsageCertSign : Nat := 32

def KeyUsageCRLSign : Nat := 64

def KeyUsageEncipherOnly : Nat := 128

def KeyUsageDecipherOnly : Nat := 256

/-- `getKeyUsages`: the key-usage bitmap decoded to OpenSSL names in
bit order. -/
def getKeyUsages (cert : X509Certificate) : GoSlice String :=
  let keyUsage := cert.KeyUsage
  let usage : List String := []
  let usage := if keyUsage &&& KeyUsageDigitalSignature != 0 then
    usage ++ ["Digital Signature"] else usage
  let usage := if keyUsage &&& KeyUsageContentCommitment != 0 then
    usage ++ ["Non Repudiation"] else usage
  let usage := if keyUsage &&& KeyUsageKeyEncipherment != 0 then
    usage ++ ["Key Encipherment"] else usage
  let usage := if keyUsage &&& KeyUsageDataEncipherment != 0 then
    usage ++ ["Data Encipherment"] else usage
  let usage := if keyUsage &&& KeyUsageKeyAgreement != 0 then
    usage ++ ["Key Agreement"] else usage
  let usage := if keyUsage &&& KeyUsageCertSign != 0 then
    usage ++ ["Certificate Sign"] else usage
  let usage := if keyUsage &&& KeyUsageCRLSign != 0 then
    usage ++ ["CRL Sign"] else usage
  let usage := if keyUsage &&& KeyUsageEncipherOnly != 0 then
    usage ++ ["Encipher Only"] else usage
  let usage := if keyUsage &&& KeyUsageDecipherOnly != 0 then
    usage ++ ["Decipher Only"] else usage
  some usage

/-- `getCertExtensions`: the exported extensions; the three slice
copies are materialized from `make([]string, 0)` so they are never
nil.  `none` only on an out-of-range EKU enum (a panic in Go). -/
def getCertExtensions (cert : X509Certificate) : Option Extensions :=
  let san := GoSlice.appendAll GoSlice.make0 (GoSlice.toList cert.DNSNames)
  let crld := GoSlice.appendAll GoSlice.make0
    (GoSlice.toList cert.CRLDistributionPoints)
  let pnames := GoSlice.appendAll GoSlice.make0
    (GoSlice.toList cert.PermittedDNSDomains)
  match getExtKeyUsages cert with
  | none => none
  | some eku =>
      let ext : Extensions :=
        { AuthorityKeyId := base64Encode cert.AuthorityKeyId
          SubjectKeyId := base64Encode cert.SubjectKeyId
          KeyUsage := getKeyUsages cert
          ExtendedKeyUsage := eku
          PolicyIdentifiers := getPolicyIdentifiers cert
          SubjectAlternativeName := san
          CRLDistributionPoints := crld
          PermittedNames := pnames }
      let ext := if 0 < GoSlice.len ext.PermittedNames then
        { ext with IsNameConstrained := true } else ext
      ext

/-- `getPublicKeyInfo`: the algorithm name from the 4-entry table plus
the per-family key data (`big.Int.MarshalText` and `String` render
decimal and never fail); `none` when the algorithm enum is out of
range of the table (a panic in Go). -/
def getPublicKeyInfo (cert : X509Certificate) :
    Option SubjectPublicKeyInfo :=
  match tableIndex PublicKeyAlgorithmTable cert.PublicKeyAlgorithm with
  | none => none
  | some alg =>
      let pubInfo : SubjectPublicKeyInfo := { Alg := alg }
      match cert.PublicKey with
      | .rsa n e _ =>
          some { pubInfo with Size := (Nat.size n : Int), Exponent := e }
      | .dsa p q g y _ =>
          some { pubInfo with
                 Size := (Nat.size y : Int)
                 G := Nat.repr g
                 P := Nat.repr p
                 Q := Nat.repr q
                 Y := Nat.repr y }
      | .ecdsa bitSize curveName x y _ =>
          some { pubInfo with
                 Size := bitSize
                 Curve := curveName
                 Y := Nat.repr y
                 X := Nat.repr x }
      | .unknown => some pubInfo

/-! ## CertToStored -/

/-- `CertToStored`: the stored `Certificate` built from a parsed
certificate.  `now` embeds `time.Now().UTC()`.  The result is `none`
exactly when one of the three fixed-table lookups indexes out of
range (a panic in Go); the `KeyInfoError` path of `getPublicKeyInfo`
is logged and ignored in Go and unreachable in the embedding. -/
def CertToStored (cert : X509Certificate)
    (parentSignature domain ip TSName : String)
    (valInfo : ValidationInfo) (now : Int) : Option Certificate :=
  match tableIndex SignatureAlgorithmTable cert.SignatureAlgorithm,
        getPublicKeyInfo cert, getCertExtensions cert with
  | some sigAlgName, some key, some exts =>
      some
        { Serial := asciiUpper (hexLower cert.SerialNumberBytes)
          ScanTarget := if !cert.IsCA then domain else ""
          IPs := if !cert.IsCA then GoSlice.append1 GoSlice.make0 ip
                 else GoSlice.make0
          Version := cert.Version
          SignatureAlgorithm := sigAlgName
          Issuer :=
            { Country := cert.Issuer.Country
              Organisation := cert.Issuer.Organization
              OrgUnit := cert.Issuer.OrganizationalUnit
              CommonName := cert.Issuer.CommonName }
          Validity :=
            { NotBefore := cert.NotBefore, NotAfter := cert.NotAfter }
          Subject :=
            { Country := cert.Subject.Country
              Organisation := cert.Subject.Organization
              OrgUnit := cert.Subject.OrganizationalUnit
              CommonName := cert.Subject.CommonName }
          Key := key
          X509v3Extensions := exts
          X509v3BasicConstraints :=
            if cert.Version < 3 then ""
            else if cert.BasicConstraintsValid then "Critical" else ""
          CA :=
            if cert.Version < 3 then cert.IsCA
            else if cert.BasicConstraintsValid then cert.IsCA else false
          ParentSignature := GoSlice.append1 GoSlice.make0 parentSignature
          ValidationInfo := GoMap.set [] TSName valInfo
          FirstSeenTimestamp := now
          LastSeenTimestamp := now
          Hashes :=
            { MD5 := MD5Hash cert.Raw
              SHA1 := SHA1Hash cert.Raw
              SHA256 := SHA256Hash cert.Raw
              SHA256SubjectSPKI := SHA256SubjectSPKI cert
              PKPSHA256 := PKPSHA256Hash cert }
          Raw := base64Encode cert.Raw }
  | _, _, _ => none

/-! ## Subject display and self-signature -/

/-- `Subject.String()`: OpenSSL-style display of a subject. -/
def subjectString (s : Subject) : String :=
  let comp : List String := []
  let comp := if 0 < GoSlice.len s.Country then
    comp ++ ["C=" ++ strJoin (GoSlice.toList s.Country) ", C="] else comp
  let comp := if 0 < GoSlice.len s.Organisation then
    comp ++ ["O=" ++ strJoin (GoSlice.toList s.Organisation) ", O="] else comp
  let comp := if 0 < GoSlice.len s.OrgUnit then
    comp ++ ["OU=" ++ strJoin (GoSlice.toList s.OrgUnit) ", OU="] else comp
  let comp := if 0 < s.CommonName.length then
    comp ++ ["CN=" ++ s.CommonName] else comp
  strJoin comp ", "

/-- The element-wise comparison loop of `IsSelfSigned` (Go returns
false at the first index where the two lists differ; the lengths are
equal when it runs). -/
def elemwiseEq (xs ys : List String) : Bool :=
  (xs.zip ys).all (fun p => p.1 == p.2)

/-- `IsSelfSigned`: subject and issuer are identical (CN, then the
three lists, length first then element-wise). -/
def IsSelfSigned (c : Certificate) : Bool :=
  if c.Subject.CommonName != c.Issuer.CommonName
      || GoSlice.len c.Subject.Organisation != GoSlice.len c.Issuer.Organisation
      || GoSlice.len c.Subject.OrgUnit != GoSlice.len c.Issuer.OrgUnit
      || GoSlice.len c.Subject.Country != GoSlice.len c.Issuer.Country then
    false
  else
    elemwiseEq (GoSlice.toList c.Subject.Organisation)
        (GoSlice.toList c.Issuer.Organisation)
      && elemwiseEq (GoSlice.toList c.Subject.OrgUnit)
        (GoSlice.toList c.Issuer.OrgUnit)
      && elemwiseEq (GoSlice.toList c.Subject.Country)
        (GoSlice.toList c.Issuer.Country)

/-! ## Projections of an optional stored certificate

Named projections of `Option Certificate`, used to state properties
of `CertToStored`'s result without evaluating unrelated fields. -/

def storedCA (o : Option Certificate) : Option Bool :=
  o.map Certificate.CA

def storedScanTarget (o : Option Certificate) : Option String :=
  o.map Certificate.ScanTarget

def storedIPsLen (o : Option Certificate) : Option Nat :=
  o.map (fun s => GoSlice.len s.IPs)

def storedBasicConstraints (o : Option Certificate) : Option String :=
  o.map Certificate.X509v3BasicConstraints

def storedValidationInfo (o : Option Certificate) :
    Option (GoMap ValidationInfo) :=
  o.map Certificate.ValidationInfo

def storedValidationInfoSize (o : Option Certificate) : Option Nat :=
  o.map (fun s => GoMap.size s.ValidationInfo)

/-- The eight list-valued fields that `CertToStored` materializes
itself (`make([]string, 0)` and appends): true when none of them is a
nil slice. -/
def storedMaterializedNonNil (o : Option Certificate) : Option Bool :=
  o.map (fun s =>
    [s.IPs, s.ParentSignature,
     s.X509v3Extensions.SubjectAlternativeName,
     s.X509v3Extensions.CRLDistributionPoints,
     s.X509v3Extensions.PermittedNames,
     s.X509v3Extensions.KeyUsage,
     s.X509v3Extensions.ExtendedKeyUsage,
     s.X509v3Extensions.PolicyIdentifiers].all Option.isSome)

/-- The six subject/issuer name lists of the stored certificate, in
the order subject C, O, OU then issuer C, O, OU. -/
def storedNameLists (o : Option Certificate) :
    Option (List (GoSlice String)) :=
  o.map (fun s =>
    [s.Subject.Country, s.Subject.Organisation, s.Subject.OrgUnit,
     s.Issuer.Country, s.Issuer.Organisation, s.Issuer.OrgUnit])

/-- Length and nil-ness of the stored subject Country list. -/
def storedSubjectCountryShape (o : Option Certificate) :
    Option (Nat × Bool) :=
  o.map (fun s => (GoSlice.len s.Subject.Country, s.Subject.Country.isNone))

/-! ## Spec-side definitions

These follow the wording of the specification, to be compared with
the definitions embedded from the source. -/

/-- Spec wording for `GetBooleanValidity` (C9): the verdict of one
store is the `isValid` field of its `validationInfo` entry when the
key is present, and `false` when it is absent. -/
def specStoreVerdict (c : Certificate) (k : String) : Bool :=
  match GoMap.get c.ValidationInfo k with
  | some vi => vi.IsValid
  | none => false

/-- Spec wording for `Subject.String` (C7): render the elements of
the present components in the canonical order C, O, OU, CN (repeated
list elements as additional `C=`/`O=`/`OU=` components), omitting
every component whose list or CommonName is empty; the result is the
`", "`-join of this list. -/
def subjectComponents (s : Subject) : List String :=
  (GoSlice.toList s.Country).map (fun x => "C=" ++ x) ++
  (GoSlice.toList s.Organisation).map (fun x => "O=" ++ x) ++
  (GoSlice.toList s.OrgUnit).map (fun x => "OU=" ++ x) ++
  (if s.CommonName = "" then [] else ["CN=" ++ s.CommonName])

/-- Spec wording for `IsSelfSigned` (C8): two lists agree when they
have equal length and equal elements at every index. -/
def sameLenAndElems (a b : GoSlice String) : Prop :=
  GoSlice.len a = GoSlice.len b ∧
  ∀ i, i < GoSlice.len a →
    (GoSlice.toList a).get? i = (GoSlice.toList b).get? i

instance instDecSameLenAndElems (a b : GoSlice String) :
    Decidable (sameLenAndElems a b) := by
  unfold sameLenAndElems
  infer_instance

/-- The list of optional display groups built by `subjectString`:
nothing for an empty group, the `", "`-join of the group otherwise. -/
def optGroup (g : List String) : List String :=
  if g = [] then [] else [strJoin g ", "]

/-- Fold a list of display groups the way `subjectString` builds its
`comp` list. -/
def compOf (gs : List (List String)) : List String :=
  gs.foldr (fun g acc => optGroup g ++ acc) []

/-- One step of `subjectString`'s `comp` construction, on the list of
already-rendered elements of a group. -/
def addGroup (comp g : List String) : List String :=
  if g = [] then comp else comp ++ [strJoin g ", "]

/-! ## Concrete example inputs -/

/-- A validation verdict used in witnesses. -/
def exValInfo : ValidationInfo := { IsValid := true }

/-- A plain v3 leaf certificate with in-range enum values. -/
def exLeaf : X509Certificate := { Version := 3, BasicConstraintsValid := true }

/-- A v3 CA certificate with a valid BasicConstraints extension. -/
def exCACert : X509Certificate :=
  { Version := 3, BasicConstraintsValid := true, IsCA := true }

/-- A certificate whose parsed version field is 4 (Go's parser of this
era does not bound the version); it carries a valid BasicConstraints
extension. -/
def exV4Cert : X509Certificate :=
  { Version := 4, BasicConstraintsValid := true }

/-- A certificate whose public key algorithm is unknown. -/
def exUnknownKeyCert : X509Certificate := { PublicKey := .unknown }

/-- A stored certificate whose validation map has a `true` Ubuntu
entry and no other key. -/
def exStoredCert : Certificate :=
  { ValidationInfo := [(Ubuntu_TS_name, { IsValid := true })] }

/-- A stored certificate whose subject and issuer are identical. -/
def exSelfSigned : Certificate :=
  { Subject := { Country := some ["US"], Organisation := some ["Org"],
                 OrgUnit := none, CommonName := "example.com" }
    Issuer := { Country := some ["US"], Organisation := some ["Org"],
                OrgUnit := some [], CommonName := "example.com" } }

/-- An all-empty subject. -/
def exEmptySubject : Subject := {}

/-! ## General lemmas about the embedding -/

theorem goSlice_len_toList (g : GoSlice α) :
    GoSlice.len g = (GoSlice.toList g).length := by
  cases g <;> rfl

/-- A successful `CertToStored` yields successes of the three
fallible helpers. -/
theorem certToStored_cases {cert : X509Certificate}
    {ps dom ip ts : String} {vi : ValidationInfo} {now : Int}
    (h : (CertToStored cert ps dom ip ts vi now).isSome = true) :
    ∃ a k e, tableIndex SignatureAlgorithmTable cert.SignatureAlgorithm = some a ∧
      getPublicKeyInfo cert = some k ∧ getCertExtensions cert = some e := by
  unfold CertToStored at h
  cases h1 : tableIndex SignatureAlgorithmTable cert.SignatureAlgorithm with
  | none => rw [h1] at h; simp at h
  | some a =>
    cases h2 : getPublicKeyInfo cert with
    | none => rw [h1, h2] at h; simp at h
    | some k =>
      cases h3 : getCertExtensions cert with
      | none => rw [h1, h2, h3] at h; simp at h
      | some e => exact ⟨a, k, e, rfl, rfl, rfl⟩

/-- The stored record produced by a successful `CertToStored`. -/
theorem certToStored_unfold {cert : X509Certificate}
    {ps dom ip ts : String} {vi : ValidationInfo} {now : Int}
    {a : String} {k : SubjectPublicKeyInfo} {e : Extensions}
    (h1 : tableIndex SignatureAlgorithmTable cert.SignatureAlgorithm = some a)
    (h2 : getPublicKeyInfo cert = some k)
    (h3 : getCertExtensions cert = some e) :
    CertToStored cert ps dom ip ts vi now =
      some
        { Serial := asciiUpper (hexLower cert.SerialNumberBytes)
          ScanTarget := if !cert.IsCA then dom else ""
          IPs := if !cert.IsCA then GoSlice.append1 GoSlice.make0 ip
                 else GoSlice.make0
          Version := cert.Version
          SignatureAlgorithm := a
          Issuer :=
            { Country := cert.Issuer.Country
              Organisation := cert.Issuer.Organization
              OrgUnit := cert.Issuer.OrganizationalUnit
              CommonName := cert.Issuer.CommonName }
          Validity :=
            { NotBefore := cert.NotBefore, NotAfter := cert.NotAfter }
          Subject :=
            { Country := cert.Subject.Country
              Organisation := cert.Subject.Organization
              OrgUnit := cert.Subject.OrganizationalUnit
              CommonName := cert.Subject.CommonName }
          Key := k
          X509v3Extensions := e
          X509v3BasicConstraints :=
            if cert.Version < 3 then ""
            else if cert.BasicConstraintsValid then "Critical" else ""
          CA :=
            if cert.Version < 3 then cert.IsCA
            else if cert.BasicConstraintsValid then cert.IsCA else false
          ParentSignature := GoSlice.append1 GoSlice.make0 ps
          ValidationInfo := GoMap.set [] ts vi
          FirstSeenTimestamp := now
          LastSeenTimestamp := now
          Hashes :=
            { MD5 := MD5Hash cert.Raw
              SHA1 := SHA1Hash cert.Raw
              SHA256 := SHA256Hash cert.Raw
              SHA256SubjectSPKI := SHA256SubjectSPKI cert
              PKPSHA256 := PKPSHA256Hash cert }
          Raw := base64Encode cert.Raw } := by
  unfold CertToStored
  rw [h1, h2, h3]

/-! ## C2 -/

/-- C2 (amended): for every parsed certificate whose public-key
algorithm is not RSA, DSA or ECDSA, `PKPSHA256Hash` writes nothing to
the hash, so the PKPSHA256 fingerprint is the fixed base64 SHA-256 of
the empty byte string (not the empty string). -/
theorem pkpsha256_unknown_key (cert : X509Certificate)
    (h : cert.PublicKey = GoPublicKey.unknown) :
    PKPSHA256Hash cert = "47DEQpj8HBSa+/TImW+5JCeuQeRkm5NMpJWZG3hSuFU=" := by
  unfold PKPSHA256Hash
  rw [h]
  decide

/-- C2 counterexample: the claim as stated (the fingerprint is the
empty string) fails at a concrete certificate with an unknown key
algorithm. -/
theorem pkpsha256_unknown_key_cex : PKPSHA256Hash exUnknownKeyCert ≠ "" := by
  decide

/-- C2 witness. -/
theorem pkpsha256_unknown_key_witness :
    PKPSHA256Hash exUnknownKeyCert =
      "47DEQpj8HBSa+/TImW+5JCeuQeRkm5NMpJWZG3hSuFU=" :=
  pkpsha256_unknown_key exUnknownKeyCert rfl

/-! ## C9 -/

/-- C9: `GetBooleanValidity` returns, for each of the five trust-store
names in order (Ubuntu, Mozilla, Microsoft, Apple, Android), the
`isValid` field of the corresponding `validationInfo` entry when the
key is present, and `false` for a store whose key is absent. -/
theorem getBooleanValidity_spec (c : Certificate) :
    GetBooleanValidity c =
      (specStoreVerdict c Ubuntu_TS_name, specStoreVerdict c Mozilla_TS_name,
       specStoreVerdict c Microsoft_TS_name, specStoreVerdict c Apple_TS_name,
       specStoreVerdict c Android_TS_name) ∧
    (∀ k vi, GoMap.get c.ValidationInfo k = some vi →
       specStoreVerdict c k = vi.IsValid) ∧
    (∀ k, GoMap.get c.ValidationInfo k = none →
       specStoreVerdict c k = false) := by
  refine ⟨?_, ?_, ?_⟩
  · unfold GetBooleanValidity specStoreVerdict
    cases GoMap.get c.ValidationInfo Ubuntu_TS_name <;>
      cases GoMap.get c.ValidationInfo Mozilla_TS_name <;>
      cases GoMap.get c.ValidationInfo Microsoft_TS_name <;>
      cases GoMap.get c.ValidationInfo Apple_TS_name <;>
      cases GoMap.get c.ValidationInfo Android_TS_name <;> rfl
  · intro k vi h
    simp [specStoreVerdict, h]
  · intro k h
    simp [specStoreVerdict, h]

/-- C9 witness. -/
theorem getBooleanValidity_spec_witness :
    GetBooleanValidity exStoredCert = (true, false, false, false, false) ∧
    specStoreVerdict exStoredCert Android_TS_name = false :=
  ⟨(getBooleanValidity_spec exStoredCert).1.trans (by decide),
   (getBooleanValidity_spec exStoredCert).2.2 Android_TS_name (by decide)⟩

/-! ## C1 -/

/-- C1 (amended): a map built by `GetValidityMap` contains exactly the
five trust-store keys Ubuntu, Mozilla, Microsoft, Apple, Android, in
that order; but a certificate stamped by `CertToStored` has exactly
one `validationInfo` key, the trust-store name passed in. -/
theorem validationInfo_keys_spec :
    (∀ b1 b2 b3 b4 b5 : Bool,
       GoMap.keys (GetValidityMap b1 b2 b3 b4 b5) =
         [Ubuntu_TS_name, Mozilla_TS_name, Microsoft_TS_name,
          Apple_TS_name, Android_TS_name]) ∧
    (∀ (cert : X509Certificate) (ps dom ip ts : String)
       (vi : ValidationInfo) (now : Int),
       (CertToStored cert ps dom ip ts vi now).isSome = true →
       storedValidationInfo (CertToStored cert ps dom ip ts vi now) =
         some [(ts, vi)]) := by
  constructor
  · intro b1 b2 b3 b4 b5
    rfl
  · intro cert ps dom ip ts vi now h
    obtain ⟨a, k, e, h1, h2, h3⟩ := certToStored_cases h
    rw [certToStored_unfold h1 h2 h3]
    rfl

/-- C1 counterexample: the claim as stated fails at a concrete
certificate: `CertToStored` stores a one-key map, not a five-key
map. -/
theorem validationInfo_keys_cex :
    storedValidationInfoSize
        (CertToStored exLeaf "p" "d" "i" "Ubuntu" exValInfo 0) = some 1 ∧
    storedValidationInfoSize
        (CertToStored exLeaf "p" "d" "i" "Ubuntu" exValInfo 0) ≠ some 5 := by
  decide

/-- C1 witness. -/
theorem validationInfo_keys_witness :
    GoMap.keys (GetValidityMap true false true false true) =
      [Ubuntu_TS_name, Mozilla_TS_name, Microsoft_TS_name,
       Apple_TS_name, Android_TS_name] ∧
    storedValidationInfo (CertToStored exLeaf "p" "d" "i" "Ubuntu" exValInfo 0) =
      some [("Ubuntu", exValInfo)] :=
  ⟨validationInfo_keys_spec.1 true false true false true,
   validationInfo_keys_spec.2 exLeaf "p" "d" "i" "Ubuntu" exValInfo 0 (by decide)⟩

/-! ## C10 -/

theorem tableIndex_isSome {t : List String} {i : Int}
    (h0 : 0 ≤ i) (hlt : i < (t.length : Int)) :
    (tableIndex t i).isSome = true := by
  unfold tableIndex
  rw [if_neg (by omega)]
  have hn : i.toNat < t.length := by omega
  rw [List.get?_eq_get hn]
  rfl

theorem mapM_eku_isSome {l : List Int}
    (h : ∀ e ∈ l, 0 ≤ e ∧ e < 12) :
    (l.mapM (tableIndex ExtKeyUsageTable)).isSome = true := by
  induction l with
  | nil => rfl
  | cons x xs ih =>
    have hx := h x (List.mem_cons_self x xs)
    have hlen : ((ExtKeyUsageTable.length : Nat) : Int) = 12 := rfl
    have hsx := @tableIndex_isSome ExtKeyUsageTable x hx.1 (by omega)
    obtain ⟨v, hv⟩ := Option.isSome_iff_exists.mp hsx
    have hxs := ih (fun e he => h e (List.mem_cons_of_mem _ he))
    obtain ⟨vs, hvs⟩ := Option.isSome_iff_exists.mp hxs
    rw [List.mapM_cons, hv, hvs]
    rfl

theorem getPublicKeyInfo_isSome {cert : X509Certificate}
    (h : 0 ≤ cert.PublicKeyAlgorithm ∧ cert.PublicKeyAlgorithm < 4) :
    (getPublicKeyInfo cert).isSome = true := by
  unfold getPublicKeyInfo
  have hlen : ((PublicKeyAlgorithmTable.length : Nat) : Int) = 4 := rfl
  have ht := @tableIndex_isSome PublicKeyAlgorithmTable
    cert.PublicKeyAlgorithm h.1 (by omega)
  obtain ⟨alg, halg⟩ := Option.isSome_iff_exists.mp ht
  rw [halg]
  cases cert.PublicKey <;> rfl

theorem getCertExtensions_isSome {cert : X509Certificate}
    (h : ∀ e ∈ cert.ExtKeyUsage, 0 ≤ e ∧ e < 12) :
    (getCertExtensions cert).isSome = true := by
  unfold getCertExtensions getExtKeyUsages
  obtain ⟨us, hus⟩ := Option.isSome_iff_exists.mp (mapM_eku_isSome h)
  rw [hus]
  simp only [Option.map_some']
  split <;> rfl

/-- C10: under the preconditions that the parsed signature-algorithm
value is in 0..12, every extended-key-usage value is in 0..11 and the
public-key-algorithm value is in 0..3, every fixed-table lookup in
`CertToStored` and its helpers is in bounds and `CertToStored` is
total (returns a value, never the out-of-range panic). -/
theorem certToStored_total (cert : X509Certificate)
    (ps dom ip ts : String) (vi : ValidationInfo) (now : Int)
    (hsig : 0 ≤ cert.SignatureAlgorithm ∧ cert.SignatureAlgorithm < 13)
    (heku : ∀ e ∈ cert.ExtKeyUsage, 0 ≤ e ∧ e < 12)
    (hpub : 0 ≤ cert.PublicKeyAlgorithm ∧ cert.PublicKeyAlgorithm < 4) :
    (CertToStored cert ps dom ip ts vi now).isSome = true := by
  unfold CertToStored
  have hlen : ((SignatureAlgorithmTable.length : Nat) : Int) = 13 := rfl
  obtain ⟨a, ha⟩ :=
    Option.isSome_iff_exists.mp (@tableIndex_isSome SignatureAlgorithmTable
      cert.SignatureAlgorithm hsig.1 (by omega))
  obtain ⟨k, hk⟩ := Option.isSome_iff_exists.mp (getPublicKeyInfo_isSome hpub)
  obtain ⟨e, he⟩ := Option.isSome_iff_exists.mp (getCertExtensions_isSome heku)
  rw [ha, hk, he]
  rfl

/-- C10 witness. -/
theorem certToStored_total_witness :
    (CertToStored exLeaf "p" "d" "i" "Ubuntu" exValInfo 0).isSome = true :=
  certToStored_total exLeaf "p" "d" "i" "Ubuntu" exValInfo 0
    (by decide) (by decide) (by decide)

/-! ## C3 -/

/-- C3: the stored `ca` flag is true iff either (a) the certificate
version is less than 3 and the parser flagged IsCA, or (b) the
version is at least 3, the BasicConstraints extension is valid, and
IsCA is set. -/
theorem certToStored_ca_spec (cert : X509Certificate)
    (ps dom ip ts : String) (vi : ValidationInfo) (now : Int)
    (h : (CertToStored cert ps dom ip ts vi now).isSome = true) :
    storedCA (CertToStored cert ps dom ip ts vi now) = some true ↔
      ((cert.Version < 3 ∧ cert.IsCA = true) ∨
       (3 ≤ cert.Version ∧ cert.BasicConstraintsValid = true ∧
        cert.IsCA = true)) := by
  obtain ⟨a, k, e, h1, h2, h3⟩ := certToStored_cases h
  rw [certToStored_unfold h1 h2 h3]
  simp only [storedCA, Option.map_some', Option.some.injEq]
  by_cases hv : cert.Version < 3 <;>
    by_cases hb : cert.BasicConstraintsValid = true <;>
    simp [hv, hb] <;> omega

/-- C3 witness. -/
theorem certToStored_ca_spec_witness :
    storedCA (CertToStored exCACert "p" "d" "i" "Ubuntu" exValInfo 0) =
      some true :=
  (certToStored_ca_spec exCACert "p" "d" "i" "Ubuntu" exValInfo 0
    (by decide)).mpr (Or.inr (by decide))

/-! ## C4 -/

/-- C4 (amended): the stored basic-constraints display string is the
literal `"Critical"` iff the certificate version is at least 3 and it
carries a valid BasicConstraints extension (the code tests `version
< 3`, not `version = 3`), and it is the empty string otherwise. -/
theorem certToStored_basicConstraints_spec (cert : X509Certificate)
    (ps dom ip ts : String) (vi : ValidationInfo) (now : Int)
    (h : (CertToStored cert ps dom ip ts vi now).isSome = true) :
    (storedBasicConstraints (CertToStored cert ps dom ip ts vi now) =
        some "Critical" ↔
      (3 ≤ cert.Version ∧ cert.BasicConstraintsValid = true)) ∧
    (storedBasicConstraints (CertToStored cert ps dom ip ts vi now) =
        some "Critical" ∨
     storedBasicConstraints (CertToStored cert ps dom ip ts vi now) =
        some "") := by
  obtain ⟨a, k, e, h1, h2, h3⟩ := certToStored_cases h
  rw [certToStored_unfold h1 h2 h3]
  simp only [storedBasicConstraints, Option.map_some', Option.some.injEq]
  by_cases hv : cert.Version < 3 <;>
    by_cases hb : cert.BasicConstraintsValid = true <;>
    simp [hv, hb] <;> omega

/-- C4 counterexample: the claim as stated ("Critical" iff the
certificate is v3) fails at a concrete parsed certificate with
version 4 and a valid BasicConstraints extension. -/
theorem certToStored_basicConstraints_cex :
    storedBasicConstraints
        (CertToStored exV4Cert "p" "d" "i" "Ubuntu" exValInfo 0) =
      some "Critical" ∧
    exV4Cert.Version ≠ 3 := by
  decide

/-- C4 witness. -/
theorem certToStored_basicConstraints_witness :
    storedBasicConstraints
        (CertToStored exCACert "p" "d" "i" "Ubuntu" exValInfo 0) =
      some "Critical" :=
  (certToStored_basicConstraints_spec exCACert "p" "d" "i" "Ubuntu"
    exValInfo 0 (by decide)).1.mpr (by decide)

/-! ## C5 -/

/-- C5: a certificate stored with `ca = true` has an empty scan target
and an empty ips list. -/
theorem certToStored_leaf_only_spec (cert : X509Certificate)
    (ps dom ip ts : String) (vi : ValidationInfo) (now : Int)
    (hca : storedCA (CertToStored cert ps dom ip ts vi now) = some true) :
    storedScanTarget (CertToStored cert ps dom ip ts vi now) = some "" ∧
    storedIPsLen (CertToStored cert ps dom ip ts vi now) = some 0 := by
  have h : (CertToStored cert ps dom ip ts vi now).isSome = true := by
    cases hc : CertToStored cert ps dom ip ts vi now with
    | none => rw [storedCA, hc] at hca; simp at hca
    | some s => rfl
  obtain ⟨a, k, e, h1, h2, h3⟩ := certToStored_cases h
  rw [certToStored_unfold h1 h2 h3] at hca ⊢
  simp only [storedCA, storedScanTarget, storedIPsLen, Option.map_some',
    Option.some.injEq] at hca ⊢
  have hIsCA : cert.IsCA = true := by
    by_cases hv : cert.Version < 3 <;>
      by_cases hb : cert.BasicConstraintsValid = true <;>
      simp [hv, hb] at hca <;> exact hca
  simp [hIsCA]
  rfl

/-- C5 witness. -/
theorem certToStored_leaf_only_witness :
    storedScanTarget (CertToStored exCACert "p" "d" "i" "Ubuntu" exValInfo 0) =
      some "" ∧
    storedIPsLen (CertToStored exCACert "p" "d" "i" "Ubuntu" exValInfo 0) =
      some 0 :=
  certToStored_leaf_only_spec exCACert "p" "d" "i" "Ubuntu" exValInfo 0
    (by decide)

/-! ## C6 -/

theorem getKeyUsages_isSome (cert : X509Certificate) :
    (getKeyUsages cert).isSome = true := rfl

theorem getExtKeyUsages_val_isSome {cert : X509Certificate}
    {eku : GoSlice String} (h : getExtKeyUsages cert = some eku) :
    eku.isSome = true := by
  unfold getExtKeyUsages at h
  cases hm : cert.ExtKeyUsage.mapM (tableIndex ExtKeyUsageTable) with
  | none => rw [hm] at h; simp at h
  | some us =>
    rw [hm] at h
    simp only [Option.map_some', Option.some.injEq] at h
    rw [← h]
    rfl

/-- The list-valued extension fields of a successful
`getCertExtensions` are never nil slices. -/
theorem getCertExtensions_fields {cert : X509Certificate} {e : Extensions}
    (h : getCertExtensions cert = some e) :
    e.SubjectAlternativeName.isSome = true ∧
    e.CRLDistributionPoints.isSome = true ∧
    e.PermittedNames.isSome = true ∧
    e.KeyUsage.isSome = true ∧
    e.ExtendedKeyUsage.isSome = true ∧
    e.PolicyIdentifiers.isSome = true := by
  unfold getCertExtensions at h
  cases h4 : getExtKeyUsages cert with
  | none => rw [h4] at h; simp at h
  | some eku =>
    rw [h4] at h
    have heku := getExtKeyUsages_val_isSome h4
    simp only at h
    split at h <;>
      (rw [Option.some.injEq] at h; rw [← h];
       exact ⟨rfl, rfl, rfl, getKeyUsages_isSome cert, heku, rfl⟩)

/-- C6 (amended): in every certificate returned by `CertToStored`,
the materialized list fields (ips, parentSignature, and the extension
lists subjectAlternativeName, crlDistributionPoint, permittedNames,
keyUsage, extendedKeyUsage, policyIdentifiers) are never nil, even
when empty; but the subject and issuer Country, Organisation and
OrgUnit lists are copied as-is from the parsed certificate, so they
are nil (JSON null) exactly when the parsed name lists are. -/
theorem certToStored_lists_spec (cert : X509Certificate)
    (ps dom ip ts : String) (vi : ValidationInfo) (now : Int)
    (h : (CertToStored cert ps dom ip ts vi now).isSome = true) :
    storedMaterializedNonNil (CertToStored cert ps dom ip ts vi now) =
      some true ∧
    storedNameLists (CertToStored cert ps dom ip ts vi now) =
      some [cert.Subject.Country, cert.Subject.Organization,
            cert.Subject.OrganizationalUnit, cert.Issuer.Country,
            cert.Issuer.Organization, cert.Issuer.OrganizationalUnit] := by
  obtain ⟨a, k, e, h1, h2, h3⟩ := certToStored_cases h
  obtain ⟨e1, e2, e3, e4, e5, e6⟩ := getCertExtensions_fields h3
  rw [certToStored_unfold h1 h2 h3]
  refine ⟨?_, rfl⟩
  simp only [storedMaterializedNonNil, Option.map_some', Option.some.injEq,
    List.all_cons, List.all_nil, Bool.and_eq_true]
  exact ⟨by split <;> rfl, rfl, e1, e2, e3, e4, e5, e6, trivial⟩

/-- C6 counterexample: the claim as stated fails at a concrete parsed
certificate whose subject has no Country attribute: the stored
subject Country list has no elements yet is a nil slice (JSON null),
not an empty list. -/
theorem certToStored_lists_cex :
    storedSubjectCountryShape
        (CertToStored exLeaf "p" "d" "i" "Ubuntu" exValInfo 0) =
      some (0, true) := by
  decide

/-- C6 witness. -/
theorem certToStored_lists_witness :
    storedMaterializedNonNil
        (CertToStored exLeaf "p" "d" "i" "Ubuntu" exValInfo 0) = some true ∧
    storedNameLists (CertToStored exLeaf "p" "d" "i" "Ubuntu" exValInfo 0) =
      some [exLeaf.Subject.Country, exLeaf.Subject.Organization,
            exLeaf.Subject.OrganizationalUnit, exLeaf.Issuer.Country,
            exLeaf.Issuer.Organization, exLeaf.Issuer.OrganizationalUnit] :=
  certToStored_lists_spec exLeaf "p" "d" "i" "Ubuntu" exValInfo 0 (by decide)

/-! ## C7 -/

theorem strAppend_assoc (a b c : String) : a ++ b ++ c = a ++ (b ++ c) := by
  rcases a with ⟨la⟩
  rcases b with ⟨lb⟩
  rcases c with ⟨lc⟩
  show String.mk (la ++ lb ++ lc) = String.mk (la ++ (lb ++ lc))
  rw [List.append_assoc]

theorem strAppend_empty (s : String) : s ++ "" = s := by
  rcases s with ⟨l⟩
  show String.mk (l ++ []) = String.mk l
  rw [List.append_nil]

theorem strJoin_nil (sep : String) : strJoin [] sep = "" := rfl

theorem strJoin_single (a sep : String) : strJoin [a] sep = a :=
  strAppend_empty a

theorem strJoin_cons_ne (a : String) (l : List String) (sep : String)
    (hl : l ≠ []) :
    strJoin (a :: l) sep = a ++ (sep ++ strJoin l sep) := by
  cases l with
  | nil => cases hl rfl
  | cons b t =>
    show a ++ ((sep ++ b) ++ strJoinRest t sep) = a ++ (sep ++ (b ++ strJoinRest t sep))
    rw [strAppend_assoc]

theorem strJoin_map_prefix (p sep : String) (xs : List String)
    (hsep : sep = ", " ++ p) (hx : xs ≠ []) :
    p ++ strJoin xs sep = strJoin (xs.map (fun x => p ++ x)) ", " := by
  induction xs with
  | nil => cases hx rfl
  | cons a t ih =>
    cases t with
    | nil => rw [strJoin_single, List.map_cons, List.map_nil, strJoin_single]
    | cons b t2 =>
      have ih2 := ih (by simp)
      rw [hsep] at ih2 ⊢
      simp only [List.map_cons] at ih2 ⊢
      rw [strJoin_cons_ne a (b :: t2) (", " ++ p) (by simp),
        strJoin_cons_ne (p ++ a) ((p ++ b) :: List.map (fun x => p ++ x) t2)
          ", " (by simp),
        ← ih2]
      simp only [← strAppend_assoc]

theorem strJoin_append (xs ys : List String) (sep : String)
    (hx : xs ≠ []) (hy : ys ≠ []) :
    strJoin (xs ++ ys) sep = strJoin xs sep ++ (sep ++ strJoin ys sep) := by
  induction xs with
  | nil => cases hx rfl
  | cons a t ih =>
    cases t with
    | nil =>
      cases ys with
      | nil => cases hy rfl
      | cons b t2 =>
        rw [List.singleton_append,
          strJoin_cons_ne a (b :: t2) sep (by simp), strJoin_single]
    | cons c t2 =>
      have ih2 := ih (by simp)
      rw [List.cons_append,
        strJoin_cons_ne a ((c :: t2) ++ ys) sep (by simp),
        ih2, strJoin_cons_ne a (c :: t2) sep (by simp)]
      simp only [← strAppend_assoc]

theorem compOf_cons (g : List String) (t : List (List String)) :
    compOf (g :: t) = optGroup g ++ compOf t := rfl

theorem compOf_eq_nil (gs : List (List String)) :
    compOf gs = [] ↔ gs.flatten = [] := by
  induction gs with
  | nil => simp [compOf]
  | cons g t ih =>
    rw [compOf_cons, List.flatten_cons]
    by_cases hg : g = []
    · simp [optGroup, hg, ih]
    · simp [optGroup, hg]

theorem strJoin_compOf (gs : List (List String)) :
    strJoin (compOf gs) ", " = strJoin gs.flatten ", " := by
  induction gs with
  | nil => rfl
  | cons g t ih =>
    rw [compOf_cons, List.flatten_cons]
    by_cases hg : g = []
    · simp [optGroup, hg, ih]
    · rw [optGroup, if_neg hg]
      cases hc : compOf t with
      | nil =>
        have hf : t.flatten = [] := (compOf_eq_nil t).mp hc
        simp [hf, strJoin_single]
      | cons c t2 =>
        have hf : t.flatten ≠ [] := by
          intro hnil
          rw [(compOf_eq_nil t).mpr hnil] at hc
          cases hc
        rw [List.singleton_append,
          strJoin_cons_ne (strJoin g ", ") (c :: t2) ", " (by simp),
          ← hc, ih, strJoin_append g t.flatten ", " hg hf]

theorem addGroup_eq_optGroup (comp g : List String) :
    addGroup comp g = comp ++ optGroup g := by
  unfold addGroup optGroup
  split <;> simp

theorem addGroup_foldl (acc : List String) (gs : List (List String)) :
    gs.foldl addGroup acc = acc ++ compOf gs := by
  induction gs generalizing acc with
  | nil => simp [compOf]
  | cons g t ih =>
    rw [List.foldl_cons, ih, addGroup_eq_optGroup, compOf_cons,
      List.append_assoc]

theorem addGroup_foldl_nil (gs : List (List String)) :
    gs.foldl addGroup [] = compOf gs := by
  rw [addGroup_foldl]
  rfl

theorem addGroup_from_source (comp : List String) (p sep : String)
    (xs : List String) (hsep : sep = ", " ++ p) :
    (if 0 < xs.length then comp ++ [p ++ strJoin xs sep] else comp) =
      addGroup comp (xs.map (fun x => p ++ x)) := by
  by_cases hx : xs = []
  · subst hx
    simp [addGroup]
  · rw [if_pos (List.length_pos.mpr hx), addGroup,
      if_neg (by simpa using hx), strJoin_map_prefix p sep xs hsep hx]

theorem strLength_pos (s : String) : 0 < s.length ↔ s ≠ "" := by
  constructor
  · intro h hc
    subst hc
    simp at h
  · intro h
    by_contra hle
    have hz : s.data.length = 0 := by
      have : s.length = s.data.length := rfl
      omega
    exact h (String.ext (List.eq_nil_of_length_eq_zero hz))

theorem addGroup_from_source_cn (comp : List String) (cn : String) :
    (if 0 < cn.length then comp ++ ["CN=" ++ cn] else comp) =
      addGroup comp (if cn = "" then [] else ["CN=" ++ cn]) := by
  by_cases hc : cn = ""
  · simp [hc, addGroup]
  · rw [if_pos ((strLength_pos cn).mpr hc), if_neg hc, addGroup,
      if_neg (by simp), strJoin_single]

/-- C7: `Subject.String` renders exactly the elements of the present
components in the canonical order C, O, OU, CN, each element with its
`C=`/`O=`/`OU=`/`CN=` prefix, joined by `", "`; components with an
empty list or empty CommonName are omitted (so no separator is ever
dangling), and an all-empty subject renders as the empty string. -/
theorem subjectString_spec (s : Subject) :
    subjectString s = strJoin (subjectComponents s) ", " ∧
    (subjectComponents s = [] → subjectString s = "") := by
  have main : subjectString s = strJoin (subjectComponents s) ", " := by
    have hfold :
        addGroup (addGroup (addGroup (addGroup []
            ((GoSlice.toList s.Country).map (fun x => "C=" ++ x)))
            ((GoSlice.toList s.Organisation).map (fun x => "O=" ++ x)))
            ((GoSlice.toList s.OrgUnit).map (fun x => "OU=" ++ x)))
            (if s.CommonName = "" then [] else ["CN=" ++ s.CommonName]) =
          compOf
            [(GoSlice.toList s.Country).map (fun x => "C=" ++ x),
             (GoSlice.toList s.Organisation).map (fun x => "O=" ++ x),
             (GoSlice.toList s.OrgUnit).map (fun x => "OU=" ++ x),
             if s.CommonName = "" then [] else ["CN=" ++ s.CommonName]] :=
      addGroup_foldl_nil
        [(GoSlice.toList s.Country).map (fun x => "C=" ++ x),
         (GoSlice.toList s.Organisation).map (fun x => "O=" ++ x),
         (GoSlice.toList s.OrgUnit).map (fun x => "OU=" ++ x),
         if s.CommonName = "" then [] else ["CN=" ++ s.CommonName]]
    simp only [subjectString, subjectComponents]
    rw [goSlice_len_toList s.Country, goSlice_len_toList s.Organisation,
      goSlice_len_toList s.OrgUnit]
    rw [addGroup_from_source [] "C=" ", C=" (GoSlice.toList s.Country) rfl]
    rw [addGroup_from_source _ "O=" ", O=" (GoSlice.toList s.Organisation) rfl]
    rw [addGroup_from_source _ "OU=" ", OU=" (GoSlice.toList s.OrgUnit) rfl]
    rw [addGroup_from_source_cn]
    rw [hfold, strJoin_compOf]
    simp [List.flatten_cons, List.append_assoc]
  exact ⟨main, fun h => by rw [main, h]; rfl⟩

/-- C7 witness: the all-empty subject renders as the empty string. -/
theorem subjectString_spec_witness : subjectString exEmptySubject = "" :=
  (subjectString_spec exEmptySubject).2 (by decide)

/-! ## C8 -/

theorem list_eq_of_len_elems {xs ys : List String}
    (hlen : xs.length = ys.length)
    (h : ∀ i, i < xs.length → xs.get? i = ys.get? i) : xs = ys := by
  apply List.ext_get?
  intro n
  by_cases hn : n < xs.length
  · exact h n hn
  · have h1 : xs.get? n = none := by
      rw [List.get?_eq_none]
      omega
    have h2 : ys.get? n = none := by
      rw [List.get?_eq_none]
      omega
    rw [h1, h2]

theorem elemwiseEq_iff {xs ys : List String}
    (hlen : xs.length = ys.length) :
    elemwiseEq xs ys = true ↔ xs = ys := by
  induction xs generalizing ys with
  | nil =>
    cases ys with
    | nil => simp [elemwiseEq]
    | cons b u => simp at hlen
  | cons a t ih =>
    cases ys with
    | nil => simp at hlen
    | cons b u =>
      have hlen2 : t.length = u.length := by simpa using hlen
      simp only [elemwiseEq, List.zip_cons_cons, List.all_cons,
        Bool.and_eq_true, beq_iff_eq, List.cons.injEq]
      rw [show ((t.zip u).all (fun p => p.1 == p.2) = true) =
        (elemwiseEq t u = true) from rfl, ih hlen2]

theorem sameLenAndElems_iff (a b : GoSlice String) :
    sameLenAndElems a b ↔
      ((GoSlice.toList a).length = (GoSlice.toList b).length ∧
       GoSlice.toList a = GoSlice.toList b) := by
  unfold sameLenAndElems
  rw [goSlice_len_toList a, goSlice_len_toList b]
  constructor
  · rintro ⟨h1, h2⟩
    exact ⟨h1, list_eq_of_len_elems h1 h2⟩
  · rintro ⟨h1, h2⟩
    exact ⟨h1, fun i _ => by rw [h2]⟩

/-- C8: `IsSelfSigned` returns true iff the subject and issuer
CommonName are equal and each of the Country, Organisation and
OrgUnit lists of subject and issuer have equal length and equal
elements at every index. -/
theorem isSelfSigned_spec (c : Certificate) :
    IsSelfSigned c = true ↔
      (c.Subject.CommonName = c.Issuer.CommonName ∧
       sameLenAndElems c.Subject.Country c.Issuer.Country ∧
       sameLenAndElems c.Subject.Organisation c.Issuer.Organisation ∧
       sameLenAndElems c.Subject.OrgUnit c.Issuer.OrgUnit) := by
  by_cases h1 : c.Subject.CommonName = c.Issuer.CommonName <;>
    by_cases h2 : (GoSlice.toList c.Subject.Organisation).length =
      (GoSlice.toList c.Issuer.Organisation).length <;>
    by_cases h3 : (GoSlice.toList c.Subject.OrgUnit).length =
      (GoSlice.toList c.Issuer.OrgUnit).length <;>
    by_cases h4 : (GoSlice.toList c.Subject.Country).length =
      (GoSlice.toList c.Issuer.Country).length <;>
    (simp [IsSelfSigned, goSlice_len_toList, sameLenAndElems_iff,
      elemwiseEq_iff, h1, h2, h3, h4]
     try tauto)

/-- C8 witness. -/
theorem isSelfSigned_spec_witness : IsSelfSigned exSelfSigned = true :=
  (isSelfSigned_spec exSelfSigned).mpr (by decide)

end TLSObs

